import Mathlib

/-!
Verification of the CRUDZASO v2 task-manager scripts.

The JavaScript sources are embedded shallowly:

* strings are lists of characters (`Str`); `toLowerCase`, `trim`,
  `includes` and `replace(' ', '-')` are modelled character by character;
* `Date` values are millisecond timestamps (`Int`); a date-only string
  such as a task's due date parses to the UTC midnight of that calendar
  day, so its timestamp is a multiple of `msPerDay`;
* `Math.round` on a finite value is `jsRound`: the floor of the value
  plus one half (JavaScript rounds half toward positive infinity);
* `Array.prototype.sort(cmp)` is `jsSortWith cmp`: a stable
  insertion sort that scans from the front and inserts each element
  before the first resident element that compares strictly greater
  (equal elements are passed over, which keeps the sort stable whenever
  the comparator is consistent);
* `localStorage` keys are explicit state arguments and return values;
  a stored JSON blob that fails to parse is the `malformed` value;
* absent (`undefined`) fields and values are `Option.none`.
-/

namespace Crudzaso

/-! ## JavaScript string and number primitives -/

/-- JavaScript strings, as lists of characters. -/
abbrev Str := List Char

/-- Model of `String.prototype.toLowerCase` (ASCII letters). -/
def jsToLower (s : Str) : Str := s.map Char.toLower

/-- Model of `String.prototype.trim`: strip leading and trailing whitespace. -/
def jsTrim (s : Str) : Str :=
  ((s.dropWhile Char.isWhitespace).reverse.dropWhile Char.isWhitespace).reverse

/-- Does `hay` start with `pat`? (helper for `strContains`). -/
def strStartsWith : Str → Str → Bool
  | _, [] => true
  | [], _ :: _ => false
  | c :: cs, p :: ps => c = p && strStartsWith cs ps

/-- Model of `String.prototype.includes`: `pat` occurs contiguously in `hay`. -/
def strContains : Str → Str → Bool
  | [], pat => pat.isEmpty
  | c :: cs, pat => strStartsWith (c :: cs) pat || strContains cs pat

/-- Model of `String.prototype.replace(old, new)` with one-character
patterns: replace the first occurrence only. -/
def replaceFirst (pat repl : Char) : Str → Str
  | [] => []
  | c :: cs => if c = pat then repl :: cs else c :: replaceFirst pat repl cs

/-- Model of JavaScript `Math.round`: round half toward positive infinity. -/
def jsRound (q : ℚ) : ℤ := ⌊q + 1/2⌋

/-- Milliseconds per calendar day; a date-only string parses to
`dayIndex * msPerDay`. -/
def msPerDay : Int := 86400000

/-- Insert `a` into `l` before the first element that compares strictly
greater, passing over elements that compare less or equal. -/
def jsInsert {α : Type} (cmp : α → α → Int) (a : α) : List α → List α
  | [] => [a]
  | b :: bs => if cmp a b < 0 then a :: b :: bs else b :: jsInsert cmp a bs

/-- Model of `Array.prototype.sort(cmp)`: stable insertion sort. -/
def jsSortWith {α : Type} (cmp : α → α → Int) (l : List α) : List α :=
  l.foldl (fun acc a => jsInsert cmp a acc) []

/-! ## Task records

One task object as the pages store it in the `crudzaso_tasks` collection
and as `dashboard.js` / `tasks.js` read it. Timestamps are millisecond
instants; the due date, written as a date-only string by the form, parses
to the UTC midnight of its calendar day. Fields the scripts guard with a
truthiness check before use (`description`, `assignee`) are `Option`;
a missing `tags` array behaves like the empty list. -/

structure Task where
  id : Str
  title : Str
  description : Option Str
  category : Str
  assignee : Option Str
  tags : List Str
  status : Str
  priority : Str
  dueDate : Option Int
  createdAt : Int
  updatedAt : Int
  estimatedHours : Option Int
  actualHours : Option Int
deriving DecidableEq, Repr

/-! ## dashboard.js -/

/-- The `PRIORITY_ORDER` lookup of dashboard.js with the `|| 0` default
applied by `sortTasksByRelevance`. -/
def PRIORITY_ORDER (p : Str) : Int :=
  if p = "High".toList then 3
  else if p = "Medium".toList then 2
  else if p = "Low".toList then 1
  else 0

/-- The `STATUS_ORDER` lookup of dashboard.js with the `|| 0` default
applied by `sortTasksByRelevance`. -/
def STATUS_ORDER (s : Str) : Int :=
  if s = "Pending".toList then 1
  else if s = "In Progress".toList then 2
  else if s = "Completed".toList then 3
  else 0

/-- The comparator `sortTasksByRelevance` of dashboard.js: status rank
ascending, then priority rank descending, then due date ascending when
both tasks have a due date, otherwise equal. -/
def sortTasksByRelevance (a b : Task) : Int :=
  let statusPriorityA := STATUS_ORDER a.status
  let statusPriorityB := STATUS_ORDER b.status
  if statusPriorityA ≠ statusPriorityB then statusPriorityA - statusPriorityB
  else
    let priorityA := PRIORITY_ORDER a.priority
    let priorityB := PRIORITY_ORDER b.priority
    if priorityA ≠ priorityB then priorityB - priorityA
    else
      match a.dueDate, b.dueDate with
      | some dA, some dB => dA - dB
      | _, _ => 0

/-- The dashboard's relevance sort: `[...tasks].sort(sortTasksByRelevance)`
from `renderTasksList`. -/
def sortedByRelevance (tasks : List Task) : List Task :=
  jsSortWith sortTasksByRelevance tasks

/-- The pairwise order the relevance sort establishes on its output:
status rank ascending, and priority rank descending within one status
rank. -/
def relevanceKeyLe (x y : Task) : Prop :=
  STATUS_ORDER x.status < STATUS_ORDER y.status
  ∨ (STATUS_ORDER x.status = STATUS_ORDER y.status
     ∧ PRIORITY_ORDER y.priority ≤ PRIORITY_ORDER x.priority)

/-- The statistics object built by `calculateTaskStatistics` in
dashboard.js. `averageCompletionTime` is initialised to 0 and never
recomputed in the source. -/
structure DashboardStats where
  total : Nat
  completed : Nat
  pending : Nat
  inProgress : Nat
  highPriority : Nat
  overdue : Nat
  completedThisWeek : Nat
  averageCompletionTime : Nat
  overallProgress : Int
  weeklyTrend : Int

/-- The function `calculateTaskStatistics` of dashboard.js, with `now`
standing for `new Date()`. `weekAgo` and `twoWeeksAgo` are `now` minus
7 resp. 14 days. -/
def calculateTaskStatistics (tasks : List Task) (now : Int) : DashboardStats :=
  let total := tasks.length
  let completed := (tasks.filter (fun t => t.status = "Completed".toList)).length
  let pending := (tasks.filter (fun t => t.status = "Pending".toList)).length
  let inProgress := (tasks.filter (fun t => t.status = "In Progress".toList)).length
  let highPriority := (tasks.filter (fun t =>
    t.priority = "High".toList ∧ ¬ t.status = "Completed".toList)).length
  let overdue := (tasks.filter (fun task =>
    if task.status = "Completed".toList then false
    else match task.dueDate with
      | none => false
      | some d => d < now)).length
  let weekAgo := now - 7 * msPerDay
  let completedThisWeek := (tasks.filter (fun task =>
    if ¬ task.status = "Completed".toList then false
    else weekAgo ≤ task.updatedAt)).length
  let overallProgress : Int :=
    if total > 0 then jsRound (((completed : ℚ) / (total : ℚ)) * 100) else 0
  let twoWeeksAgo := now - 14 * msPerDay
  let lastWeekTasks := (tasks.filter (fun task =>
    twoWeeksAgo ≤ task.createdAt ∧ task.createdAt < weekAgo)).length
  let weeklyTrend : Int :=
    if lastWeekTasks > 0 then
      jsRound ((((completedThisWeek : ℚ) - (lastWeekTasks : ℚ)) / (lastWeekTasks : ℚ)) * 100)
    else 0
  { total := total, completed := completed, pending := pending,
    inProgress := inProgress, highPriority := highPriority,
    overdue := overdue, completedThisWeek := completedThisWeek,
    averageCompletionTime := 0, overallProgress := overallProgress,
    weeklyTrend := weeklyTrend }

/-! ## tasks.js -/

/-- The predicate inside `searchTasks` of tasks.js: one task matches the
(already normalised) search term when any of title, description,
category, assignee, a tag, id, status or priority contains it. -/
def taskMatchesSearch (searchTerm : Str) (task : Task) : Bool :=
  strContains (jsToLower task.title) searchTerm
  || (match task.description with
      | some d => strContains (jsToLower d) searchTerm
      | none => false)
  || strContains (jsToLower task.category) searchTerm
  || (match task.assignee with
      | some a => strContains (jsToLower a) searchTerm
      | none => false)
  || task.tags.any (fun tag => strContains (jsToLower tag) searchTerm)
  || strContains (jsToLower task.id) searchTerm
  || strContains (jsToLower task.status) searchTerm
  || strContains (jsToLower task.priority) searchTerm

/-- The function `searchTasks` of tasks.js, reading the stored search
term: an empty (falsy) term returns all tasks unfiltered. -/
def searchTasks (searchTerm : Str) (allTasks : List Task) : List Task :=
  if searchTerm = [] then allTasks
  else allTasks.filter (taskMatchesSearch searchTerm)

/-- The search entry point `performSearch` of tasks.js stores
`searchTerm.toLowerCase().trim()` as the active search filter; this is
its composition with `searchTasks`. -/
def performSearchResults (searchTerm : Str) (allTasks : List Task) : List Task :=
  searchTasks (jsTrim (jsToLower searchTerm)) allTasks

/-- The `activeFilters` record of tasks.js. -/
structure ActiveFilters where
  search : Str
  category : Str
  priority : Str
  status : Str
deriving DecidableEq

/-- The stubbed `sortTasksByField` of tasks.js: it always returns 0. -/
def sortTasksByField (_a _b : Task) (_field _direction : Str) : Int := 0

/-- The function `applyFiltersAndSorting` of tasks.js restricted to its
list output: search, then the three structured filters, then the stubbed
field sort. The status filter compares the task's lowercased status with
its first space replaced by a hyphen. -/
def applyFiltersAndSorting (filters : ActiveFilters) (sortField sortDirection : Str)
    (allTasks : List Task) : List Task :=
  let filtered := searchTasks filters.search allTasks
  let filtered :=
    if ¬ filters.category = "all".toList then
      filtered.filter (fun task => jsToLower task.category = jsToLower filters.category)
    else filtered
  let filtered :=
    if ¬ filters.priority = "all".toList then
      filtered.filter (fun task => jsToLower task.priority = jsToLower filters.priority)
    else filtered
  let filtered :=
    if ¬ filters.status = "all".toList then
      filtered.filter (fun task =>
        replaceFirst ' ' '-' (jsToLower task.status) = jsToLower filters.status)
    else filtered
  jsSortWith (fun a b => sortTasksByField a b sortField sortDirection) filtered

/-- The function `isTaskOverdue` of tasks.js, with `now` standing for
`new Date()`. -/
def isTaskOverdue (now : Int) (task : Task) : Bool :=
  match task.dueDate with
  | none => false
  | some d => if task.status = "Completed".toList then false else d < now

/-! ## create-task.js -/

/-- The object `collectFormData` of create-task.js assembles from the
form fields. -/
structure TaskForm where
  title : String
  description : String
  category : String
  priority : String
  status : String
  dueDate : Option String
  estimatedHours : Int
  assignee : String
  tags : List String
  difficulty : String
deriving DecidableEq

/-- One task object as create-task.js writes it to the `crudzaso_tasks`
collection: the form data plus `id`, `createdAt`, `updatedAt` and
`userId`. `createdAt` is optional because a JSON-serialised object drops
a field whose value is `undefined`. -/
structure TaskRec where
  form : TaskForm
  id : String
  createdAt : Option String
  updatedAt : String
  userId : String
deriving DecidableEq

/-- The value of `taskFormState.currentTask.createdAt` at save time:
`loadTaskForEditing` is an unimplemented stub (it only logs), so
`currentTask` keeps its initial value, the empty object, whose
`createdAt` property is `undefined`. -/
def currentTaskCreatedAt : Option String := none

/-- The `taskToSave` object built by `saveTask` of create-task.js:
in edit mode the id is the edited task's id and `createdAt` is read from
`taskFormState.currentTask`; in create mode both are fresh. `userId` is
always the logged-in user's id. -/
def taskToSave (isEditing : Bool) (editingTaskId freshId : String) (form : TaskForm)
    (now : String) (currentUserId : String) : TaskRec :=
  { form := form,
    id := if isEditing then editingTaskId else freshId,
    createdAt := if isEditing then currentTaskCreatedAt else some now,
    updatedAt := now,
    userId := currentUserId }

/-- The function `saveTaskToStorage` of create-task.js over the stored
`crudzaso_tasks` collection: in edit mode it replaces the task whose id
matches `editingTaskId`, and throws (`Task not found for editing`)
before anything is written when no task matches; in create mode it
appends. The returned list is the stored collection after the call. -/
def saveTaskToStorage (isEditing : Bool) (editingTaskId : String) (taskData : TaskRec)
    (existingTasks : List TaskRec) : Except String Unit × List TaskRec :=
  if isEditing then
    match existingTasks.findIdx? (fun task => task.id = editingTaskId) with
    | some taskIndex => (.ok (), existingTasks.set taskIndex taskData)
    | none => (.error "Task not found for editing", existingTasks)
  else
    (.ok (), existingTasks ++ [taskData])

/-! ## login.js (src/unnamed/part_000, first script) -/

/-- One entry of the hard-coded `DEMO_USERS` array of login.js. -/
structure DemoUser where
  id : Nat
  email : String
  password : String
  name : String
  role : String
  department : String
  joinDate : String
deriving DecidableEq

/-- The `DEMO_USERS` array of login.js. -/
def DEMO_USERS : List DemoUser :=
  [ { id := 1, email := "student@university.edu", password := "password123",
      name := "Alex Morgan", role := "Product Designer",
      department := "Computer Science", joinDate := "2023-09-15" },
    { id := 2, email := "sarah@crudzaso.edu", password := "admin123",
      name := "Dr. Sarah Jenkins", role := "System Admin",
      department := "Computer Science", joinDate := "2020-09-14" },
    { id := 3, email := "john@university.edu", password := "student456",
      name := "John Doe", role := "Student",
      department := "Mathematics", joinDate := "2024-01-10" } ]

/-- The single error message both failure branches of `authenticateUser`
return. -/
def loginErrorMessage : String :=
  "Invalid email or password. Please check your credentials and try again."

/-- Result of `authenticateUser`: the success object carries the matched
demo user, the failure object carries the error message. -/
inductive AuthResult where
  | success (user : DemoUser)
  | failure (error : String)
deriving DecidableEq

/-- The function `authenticateUser` of login.js: look the email up in
`DEMO_USERS` only, then compare the password. -/
def authenticateUser (email password : String) : AuthResult :=
  match DEMO_USERS.find? (fun u => u.email = email) with
  | none => .failure loginErrorMessage
  | some user =>
    if ¬ user.password = password then .failure loginErrorMessage
    else .success user

/-- The part of a stored session object the expiry checks consult:
its `expires` attribute (absent when the stored object has none). -/
structure SessionData where
  expires : Option Int
deriving DecidableEq

/-- A stored value under the session key: either it parses to a session
object, or `JSON.parse` throws on it. -/
inductive StoredSession where
  | malformed
  | parsed (data : SessionData)
deriving DecidableEq

/-- The function `checkExistingSession` of login.js over the stored
session value: the session counts only when `expires` is present and
`now` is strictly before it; otherwise—and when parsing throws—the
session key is cleared. Returns (session found, stored value after
the call). -/
def checkExistingSession (store : Option StoredSession) (now : Int) :
    Bool × Option StoredSession :=
  match store with
  | none => (false, none)
  | some .malformed => (false, none)
  | some (.parsed data) =>
    match data.expires with
    | some e => if now < e then (true, store) else (false, none)
    | none => (false, none)

/-- The function `verifyUserAuthentication` of dashboard.js over the
stored session value: it rejects (and clears) only when `expires` is
present and `now` is strictly after it, or when parsing throws; a
session without `expires`, or one whose expiry equals `now`, passes.
Returns (authenticated, stored value after the call). -/
def verifyUserAuthentication (store : Option StoredSession) (now : Int) :
    Bool × Option StoredSession :=
  match store with
  | none => (false, none)
  | some .malformed => (false, none)
  | some (.parsed data) =>
    match data.expires with
    | some e => if e < now then (false, none) else (true, store)
    | none => (true, store)

/-! ## register.js -/

/-- The registration form data (`getRegisterFormData` lowercases and
trims the email before this point). -/
structure RegisterForm where
  name : String
  email : String
  password : String
deriving DecidableEq

/-- One record of the `crudzaso_users` collection register.js writes. -/
structure RegUser where
  id : String
  name : String
  email : String
  password : String
  role : String
  department : String
  joinDate : String
  registrationDate : String
deriving DecidableEq

/-- The message `VALIDATION_MESSAGES.email.exists` of register.js. -/
def emailExistsMessage : String :=
  "This email is already registered. Try signing in instead."

/-- The function `isEmailAlreadyRegistered` of register.js: an exact
match against the stored `crudzaso_users` collection. -/
def isEmailAlreadyRegistered (email : String) (storedUsers : List RegUser) : Bool :=
  storedUsers.any (fun user => user.email = email)

/-- The function `saveUserToDatabase` of register.js: append the new
user to the `crudzaso_users` collection. -/
def saveUserToDatabase (user : RegUser) (storedUsers : List RegUser) : List RegUser :=
  storedUsers ++ [user]

/-- The function `registerNewUser` of register.js: refuse an email that
is already registered, otherwise build the new user record (role
Student, department General) and append it to the stored collection.
Returns (result, stored collection after the call). -/
def registerNewUser (userData : RegisterForm) (newId joinDate registrationDate : String)
    (storedUsers : List RegUser) : Except String RegUser × List RegUser :=
  if isEmailAlreadyRegistered userData.email storedUsers then
    (.error emailExistsMessage, storedUsers)
  else
    let newUser : RegUser :=
      { id := newId, name := userData.name, email := userData.email,
        password := userData.password, role := "Student",
        department := "General", joinDate := joinDate,
        registrationDate := registrationDate }
    (.ok newUser, saveUserToDatabase newUser storedUsers)

/-! ## profile.js (src/unnamed/part_000, second script) -/

/-- The scalar fields of the object `calculateDetailedStatistics`
returns. The nested per-category and per-priority breakdowns and the
random placeholder fields (`productivityStreak`, `onTimeRate`) are not
modelled: no claim mentions them, and the latter two call
`Math.random()`. -/
structure ProfileStats where
  totalTasks : Nat
  completedTasks : Nat
  pendingTasks : Nat
  inProgressTasks : Nat
  overdueTasks : Nat
  completionRate : Int
  totalEstimatedHours : Int
  totalActualHours : Int
  averageTaskHours : ℚ
  tasksLast30Days : Nat
  tasksLast7Days : Nat
  completedLast30Days : Nat
  completedLast7Days : Nat
  averageTasksPerWeek : ℚ
  averageCompletionPerWeek : ℚ
  bestDay : String
  mostActiveTimeOfDay : String

/-- The function `calculateDetailedStatistics` of profile.js, with `now`
standing for `new Date()` (scalar fields; see `ProfileStats`).
`findBestProductivityDay` and `calculateMostActiveTime` are constant
stubs in the source. -/
def calculateDetailedStatistics (tasks : List Task) (now : Int) : ProfileStats :=
  let thirtyDaysAgo := now - 30 * msPerDay
  let sevenDaysAgo := now - 7 * msPerDay
  let totalTasks := tasks.length
  let completedTasks := (tasks.filter (fun t => t.status = "Completed".toList)).length
  let pendingTasks := (tasks.filter (fun t => t.status = "Pending".toList)).length
  let inProgressTasks := (tasks.filter (fun t => t.status = "In Progress".toList)).length
  let totalEstimatedHours := tasks.foldl (fun sum t => sum + t.estimatedHours.getD 0) 0
  let totalActualHours := tasks.foldl (fun sum t => sum + t.actualHours.getD 0) 0
  let tasksLast30Days := tasks.filter (fun t => thirtyDaysAgo < t.createdAt)
  let tasksLast7Days := tasks.filter (fun t => sevenDaysAgo < t.createdAt)
  let completedLast30Days :=
    (tasksLast30Days.filter (fun t => t.status = "Completed".toList)).length
  let completedLast7Days :=
    (tasksLast7Days.filter (fun t => t.status = "Completed".toList)).length
  let overdueTasks := (tasks.filter (fun task =>
    (decide (¬ task.status = "Completed".toList)) &&
    match task.dueDate with
    | none => false
    | some d => d < now)).length
  { totalTasks := totalTasks, completedTasks := completedTasks,
    pendingTasks := pendingTasks, inProgressTasks := inProgressTasks,
    overdueTasks := overdueTasks,
    completionRate :=
      if totalTasks > 0 then jsRound (((completedTasks : ℚ) / (totalTasks : ℚ)) * 100) else 0,
    totalEstimatedHours := totalEstimatedHours,
    totalActualHours := totalActualHours,
    averageTaskHours :=
      if totalTasks > 0 then
        (jsRound ((totalEstimatedHours : ℚ) / (totalTasks : ℚ) * 10) : ℚ) / 10
      else 0,
    tasksLast30Days := tasksLast30Days.length,
    tasksLast7Days := tasksLast7Days.length,
    completedLast30Days := completedLast30Days,
    completedLast7Days := completedLast7Days,
    averageTasksPerWeek := (jsRound ((tasksLast30Days.length : ℚ) / (43/10) * 10) : ℚ) / 10,
    averageCompletionPerWeek := (jsRound ((completedLast30Days : ℚ) / (43/10) * 10) : ℚ) / 10,
    bestDay := "Tuesday",
    mostActiveTimeOfDay := "10:00 AM - 11:00 AM" }

/-! ## Definitions written from the claims, for comparison

These two do not embed source code: each follows the words of a claim,
so that the corresponding source computation can be proved to differ
from it. -/

/-- Written from the claim on overdue counting, not from the source: the
count of tasks whose status is not Completed, whose due date is
present, and whose due date precedes `now` on a date-only comparison
(both instants reduced to their calendar day). A task due today is
never counted here. -/
def claimOverdueCount (tasks : List Task) (now : Int) : Nat :=
  (tasks.filter (fun task =>
    (decide (¬ task.status = "Completed".toList)) &&
    match task.dueDate with
    | none => false
    | some d => d.fdiv msPerDay < now.fdiv msPerDay)).length

/-- Written from the claim on search, not from the source: a task
matches the raw search term when at least one of the eight searched
fields contains the term itself (not a normalisation of it) as a
case-insensitive substring. -/
def claimSearchMatch (searchTerm : Str) (task : Task) : Bool :=
  strContains (jsToLower task.title) (jsToLower searchTerm)
  || (match task.description with
      | some d => strContains (jsToLower d) (jsToLower searchTerm)
      | none => false)
  || strContains (jsToLower task.category) (jsToLower searchTerm)
  || (match task.assignee with
      | some a => strContains (jsToLower a) (jsToLower searchTerm)
      | none => false)
  || task.tags.any (fun tag => strContains (jsToLower tag) (jsToLower searchTerm))
  || strContains (jsToLower task.id) (jsToLower searchTerm)
  || strContains (jsToLower task.status) (jsToLower searchTerm)
  || strContains (jsToLower task.priority) (jsToLower searchTerm)

/-! ## Concrete inputs used by counterexamples and witnesses -/

/-- A pending high-priority task due at instant 5. -/
def exTaskDueLate : Task :=
  { id := "a".toList, title := "Essay".toList, description := none,
    category := "Math".toList, assignee := none, tags := [],
    status := "Pending".toList, priority := "High".toList,
    dueDate := some 5, createdAt := 0, updatedAt := 0,
    estimatedHours := none, actualHours := none }

/-- Same status and priority, no due date. -/
def exTaskNoDue : Task := { exTaskDueLate with id := "b".toList, dueDate := none }

/-- Same status and priority, due at instant 1. -/
def exTaskDueSoon : Task := { exTaskDueLate with id := "c".toList, dueDate := some 1 }

/-- A pending task due at the midnight starting day 0. -/
def exTaskDueToday : Task := { exTaskDueLate with dueDate := some 0 }

/-- A task whose status is In Progress. -/
def exTaskInProgress : Task := { exTaskDueLate with status := "In Progress".toList }

/-- Structured filters selecting status `in progress`, everything else off. -/
def exStatusFilters : ActiveFilters :=
  { search := [], category := "all".toList, priority := "all".toList,
    status := "in progress".toList }

/-- A task titled `ab`; no field of it contains the two characters `b `. -/
def exTaskTitleAb : Task := { exTaskDueLate with title := "ab".toList }

/-- Form data for an edit. -/
def exEditForm : TaskForm :=
  { title := "Edited title", description := "Edited description text",
    category := "Math", priority := "High", status := "Pending",
    dueDate := none, estimatedHours := 2, assignee := "Alex",
    tags := [], difficulty := "Medium" }

/-- Form data of the stored task before the edit. -/
def exOldForm : TaskForm :=
  { title := "Old title", description := "Old description text",
    category := "Math", priority := "Low", status := "Pending",
    dueDate := none, estimatedHours := 1, assignee := "Alex",
    tags := [], difficulty := "Easy" }

/-- A stored task owned by user u1 with a recorded creation timestamp. -/
def exStoredTask : TaskRec :=
  { form := exOldForm, id := "t1",
    createdAt := some "2024-01-01T00:00:00.000Z",
    updatedAt := "2024-01-02T00:00:00.000Z", userId := "u1" }

/-- A registration form whose email is none of the demo emails. -/
def exRegisterForm : RegisterForm :=
  { name := "New User", email := "newuser@example.com", password := "secret123" }

/-- The record `registerNewUser` builds from `exRegisterForm`. -/
def exNewRegUser : RegUser :=
  { id := "id1", name := "New User", email := "newuser@example.com",
    password := "secret123", role := "Student", department := "General",
    joinDate := "2025-01-01", registrationDate := "2025-01-01T00:00:00.000Z" }

/-! ## Generic lemmas about the sort model -/

theorem jsInsert_perm {α : Type} (cmp : α → α → Int) (a : α) (l : List α) :
    (jsInsert cmp a l).Perm (a :: l) := by
  induction l with
  | nil => exact List.Perm.refl _
  | cons b bs ih =>
    by_cases h : cmp a b < 0
    · simp [jsInsert, h]
    · simp only [jsInsert, h, if_false]
      exact ((ih.cons b).trans (List.Perm.swap a b bs))

theorem jsSortWith_perm_aux {α : Type} (cmp : α → α → Int) :
    ∀ (l acc : List α),
      (l.foldl (fun acc a => jsInsert cmp a acc) acc).Perm (acc ++ l) := by
  intro l
  induction l with
  | nil => intro acc; simp
  | cons x xs ih =>
    intro acc
    have h1 : ((x :: xs).foldl (fun acc a => jsInsert cmp a acc) acc)
        = xs.foldl (fun acc a => jsInsert cmp a acc) (jsInsert cmp x acc) := rfl
    rw [h1]
    refine (ih (jsInsert cmp x acc)).trans ?_
    refine (List.Perm.append_right xs (jsInsert_perm cmp x acc)).trans ?_
    exact (@List.perm_middle _ x acc xs).symm

theorem jsSortWith_perm {α : Type} (cmp : α → α → Int) (l : List α) :
    (jsSortWith cmp l).Perm l := by
  simpa using jsSortWith_perm_aux cmp l []

theorem jsInsert_head? {α : Type} (cmp : α → α → Int) (a : α) (l : List α) :
    (jsInsert cmp a l).head? = some a ∨ (jsInsert cmp a l).head? = l.head? := by
  cases l with
  | nil => left; rfl
  | cons b bs =>
    by_cases h : cmp a b < 0
    · left; simp [jsInsert, h]
    · right; simp [jsInsert, h]

theorem jsInsert_chain' {α : Type} (cmp : α → α → Int)
    (hneg : ∀ x y, cmp y x = -cmp x y) (a : α) :
    ∀ {l : List α}, l.Chain' (fun x y => cmp x y ≤ 0) →
      (jsInsert cmp a l).Chain' (fun x y => cmp x y ≤ 0) := by
  intro l
  induction l with
  | nil => intro _; exact List.chain'_singleton a
  | cons b bs ih =>
    intro h
    by_cases hab : cmp a b < 0
    · simp only [jsInsert, hab, if_true]
      exact List.chain'_cons.mpr ⟨le_of_lt hab, h⟩
    · simp only [jsInsert, hab, if_false]
      obtain ⟨hhd, hbs⟩ := List.chain'_cons'.mp h
      refine List.chain'_cons'.mpr ⟨?_, ih hbs⟩
      intro y hy
      rcases jsInsert_head? cmp a bs with hcase | hcase
      · rw [hcase] at hy
        cases hy
        have : 0 ≤ cmp a b := le_of_not_lt hab
        rw [hneg a b]
        omega
      · rw [hcase] at hy
        exact hhd y hy

theorem jsSortWith_chain' {α : Type} (cmp : α → α → Int)
    (hneg : ∀ x y, cmp y x = -cmp x y) (l : List α) :
    (jsSortWith cmp l).Chain' (fun x y => cmp x y ≤ 0) := by
  suffices h : ∀ (l acc : List α), acc.Chain' (fun x y => cmp x y ≤ 0) →
      (l.foldl (fun acc a => jsInsert cmp a acc) acc).Chain' (fun x y => cmp x y ≤ 0) by
    exact h l [] List.chain'_nil
  intro l
  induction l with
  | nil => intro acc hacc; exact hacc
  | cons x xs ih =>
    intro acc hacc
    exact ih (jsInsert cmp x acc) (jsInsert_chain' cmp hneg x hacc)

theorem jsInsert_const_zero {α : Type} (cmp : α → α → Int)
    (hz : ∀ a b, cmp a b = 0) (a : α) (l : List α) :
    jsInsert cmp a l = l ++ [a] := by
  induction l with
  | nil => rfl
  | cons b bs ih => simp [jsInsert, hz, ih]

theorem jsSortWith_const_zero {α : Type} (cmp : α → α → Int)
    (hz : ∀ a b, cmp a b = 0) (l : List α) :
    jsSortWith cmp l = l := by
  suffices h : ∀ (l acc : List α),
      l.foldl (fun acc a => jsInsert cmp a acc) acc = acc ++ l by
    simpa using h l []
  intro l
  induction l with
  | nil => intro acc; simp
  | cons x xs ih =>
    intro acc
    have h1 : ((x :: xs).foldl (fun acc a => jsInsert cmp a acc) acc)
        = xs.foldl (fun acc a => jsInsert cmp a acc) (jsInsert cmp x acc) := rfl
    rw [h1, ih, jsInsert_const_zero cmp hz]
    simp

/-! ## Lemmas about the relevance comparator -/

theorem sortTasksByRelevance_neg (a b : Task) :
    sortTasksByRelevance b a = -sortTasksByRelevance a b := by
  unfold sortTasksByRelevance
  by_cases hs : STATUS_ORDER a.status = STATUS_ORDER b.status
  · by_cases hp : PRIORITY_ORDER a.priority = PRIORITY_ORDER b.priority
    · cases hda : a.dueDate <;> cases hdb : b.dueDate <;>
        simp [hs, hp, hda, hdb]
    · simp [hs, hp, Ne.symm hp]
  · simp [hs, Ne.symm hs]

theorem sortTasksByRelevance_le_key (x y : Task)
    (h : sortTasksByRelevance x y ≤ 0) : relevanceKeyLe x y := by
  unfold sortTasksByRelevance at h
  unfold relevanceKeyLe
  by_cases hs : STATUS_ORDER x.status = STATUS_ORDER y.status
  · by_cases hp : PRIORITY_ORDER x.priority = PRIORITY_ORDER y.priority
    · exact Or.inr ⟨hs, le_of_eq hp.symm⟩
    · simp [hs, hp] at h
      exact Or.inr ⟨hs, by omega⟩
  · simp [hs] at h
    exact Or.inl (by omega)

theorem relevanceKeyLe_trans {x y z : Task}
    (h1 : relevanceKeyLe x y) (h2 : relevanceKeyLe y z) : relevanceKeyLe x z := by
  unfold relevanceKeyLe at h1 h2 ⊢
  omega

theorem relevanceKeyLe_not_completed_before_pending {x y : Task}
    (h : relevanceKeyLe x y) :
    ¬ (x.status = "Completed".toList ∧ y.status = "Pending".toList) := by
  rintro ⟨hx, hy⟩
  unfold relevanceKeyLe at h
  rw [hx, hy] at h
  have h3 : STATUS_ORDER ("Completed".toList) = 3 := by decide
  have h1 : STATUS_ORDER ("Pending".toList) = 1 := by decide
  rw [h3, h1] at h
  omega

/-! ## Claim C1 -/

/-- Claim C1 (amended): the dashboard relevance sort returns a
permutation of its input that is ordered by status rank ascending and,
within one status rank, by priority rank descending (so no Completed
task ever precedes a Pending task); moreover each pair of adjacent
output tasks satisfies the comparator, so adjacent tasks of equal
status and priority that both carry a due date appear in ascending
due-date order. The claim's global due-date ordering and its stability
clause do not hold in general (see the counterexample): a task without
a due date ties with every task of its status and priority, which makes
the comparator intransitive. -/
theorem relevanceSort_ordered (tasks : List Task) :
    (sortedByRelevance tasks).Perm tasks
    ∧ (sortedByRelevance tasks).Pairwise relevanceKeyLe
    ∧ (sortedByRelevance tasks).Chain' (fun x y => sortTasksByRelevance x y ≤ 0)
    ∧ (sortedByRelevance tasks).Pairwise (fun x y =>
        ¬ (x.status = "Completed".toList ∧ y.status = "Pending".toList)) := by
  have hchain : (sortedByRelevance tasks).Chain' (fun x y => sortTasksByRelevance x y ≤ 0) :=
    jsSortWith_chain' sortTasksByRelevance sortTasksByRelevance_neg tasks
  haveI : IsTrans Task relevanceKeyLe := ⟨fun _ _ _ h1 h2 => relevanceKeyLe_trans h1 h2⟩
  have hpair : (sortedByRelevance tasks).Pairwise relevanceKeyLe :=
    List.chain'_iff_pairwise.mp (hchain.imp sortTasksByRelevance_le_key)
  refine ⟨jsSortWith_perm sortTasksByRelevance tasks, hpair, hchain, ?_⟩
  exact hpair.imp relevanceKeyLe_not_completed_before_pending

/-- Claim C1, counterexample to the claim as stated: with three tasks of
equal status and priority, due at 5, without a due date, and due at 1,
the middle and last tasks are tied under the comparator, yet the sort
emits the last before the middle one, so tied tasks do not keep their
original relative order (the sort is not stable), and the output order
is the one forced by the intransitive due-date tie-break. -/
theorem relevanceSort_unstable_cex :
    sortTasksByRelevance exTaskNoDue exTaskDueSoon = 0
    ∧ sortTasksByRelevance exTaskDueSoon exTaskNoDue = 0
    ∧ sortedByRelevance [exTaskDueLate, exTaskNoDue, exTaskDueSoon]
        = [exTaskDueSoon, exTaskDueLate, exTaskNoDue]
    ∧ ¬ [exTaskNoDue, exTaskDueSoon].Sublist
        (sortedByRelevance [exTaskDueLate, exTaskNoDue, exTaskDueSoon]) := by
  refine ⟨by decide, by decide, by decide, by decide⟩

/-! ## Claim C2 -/

/-- Claim C2: for every task list, the dashboard's overall progress and
the profile's completion rate agree; they equal the round-half-up of
completed / total * 100 when the list is nonempty; they always lie in
the interval from 0 to 100; and they are 0 for the empty list. -/
theorem completionRate_round_in_range (tasks : List Task) (now : Int) :
    (calculateTaskStatistics tasks now).overallProgress
      = (calculateDetailedStatistics tasks now).completionRate
    ∧ (0 < tasks.length →
        (calculateTaskStatistics tasks now).overallProgress
          = ⌊(((tasks.filter (fun t => t.status = "Completed".toList)).length : ℚ)
                / (tasks.length : ℚ) * 100 + 1/2)⌋)
    ∧ 0 ≤ (calculateTaskStatistics tasks now).overallProgress
    ∧ (calculateTaskStatistics tasks now).overallProgress ≤ 100
    ∧ (tasks = [] → (calculateTaskStatistics tasks now).overallProgress = 0) := by
  have hagree : (calculateTaskStatistics tasks now).overallProgress
      = (calculateDetailedStatistics tasks now).completionRate := rfl
  have hform : (calculateTaskStatistics tasks now).overallProgress
      = if 0 < tasks.length then
          jsRound (((tasks.filter (fun t => t.status = "Completed".toList)).length : ℚ)
            / (tasks.length : ℚ) * 100)
        else 0 := rfl
  have hcle : (tasks.filter (fun t => t.status = "Completed".toList)).length
      ≤ tasks.length := List.length_filter_le _ _
  refine ⟨hagree, ?_, ?_, ?_, ?_⟩
  · intro hpos
    rw [hform, if_pos hpos]
    rfl
  · rw [hform]
    by_cases hpos : 0 < tasks.length
    · rw [if_pos hpos]
      unfold jsRound
      refine Int.le_floor.mpr ?_
      push_cast
      positivity
    · rw [if_neg hpos]
  · rw [hform]
    by_cases hpos : 0 < tasks.length
    · rw [if_pos hpos]
      unfold jsRound
      have htq : (0 : ℚ) < (tasks.length : ℚ) := by exact_mod_cast hpos
      have hq : ((tasks.filter (fun t => t.status = "Completed".toList)).length : ℚ)
          / (tasks.length : ℚ) * 100 ≤ 100 := by
        have hdiv : ((tasks.filter (fun t => t.status = "Completed".toList)).length : ℚ)
            / (tasks.length : ℚ) ≤ 1 := by
          rw [div_le_one htq]
          exact_mod_cast hcle
        nlinarith
      have : ⌊(((tasks.filter (fun t => t.status = "Completed".toList)).length : ℚ)
          / (tasks.length : ℚ) * 100 + 1/2)⌋ < 101 := by
        refine Int.floor_lt.mpr ?_
        push_cast
        linarith
      omega
    · rw [if_neg hpos]
      omega
  · intro hnil
    subst hnil
    rfl

/-! ## Claim C3 -/

/-- Claim C3 (amended): the dashboard's overdue count equals the number
of tasks satisfying the tasks page's `isTaskOverdue`, and a task is
overdue exactly when its status is not Completed, its due date is
present, and the due-date instant (the midnight starting its calendar
day) is strictly before the current instant. The comparison is between
full instants, not calendar days: the time of day of `now` matters, so
a task due today counts as overdue as soon as `now` is past the start
of today (see the counterexample). -/
theorem overdueCount_instant_comparison (tasks : List Task) (now : Int) :
    (calculateTaskStatistics tasks now).overdue
      = (tasks.filter (isTaskOverdue now)).length
    ∧ ∀ t : Task, isTaskOverdue now t = true ↔
        (¬ t.status = "Completed".toList ∧ ∃ d, t.dueDate = some d ∧ d < now) := by
  constructor
  · show (tasks.filter (fun task =>
        if task.status = "Completed".toList then false
        else match task.dueDate with
          | none => false
          | some d => d < now)).length
      = (tasks.filter (isTaskOverdue now)).length
    congr 1
    refine List.filter_congr ?_
    intro t _
    unfold isTaskOverdue
    by_cases hs : t.status = "Completed".toList
    · cases t.dueDate <;> simp [hs]
    · cases t.dueDate <;> simp [hs]
  · intro t
    unfold isTaskOverdue
    by_cases hs : t.status = "Completed".toList
    · cases hd : t.dueDate <;> simp [hs, hd]
    · cases hd : t.dueDate <;> simp [hs, hd]

/-- Claim C3, counterexample to the claim as stated: a pending task due
on day 0 (timestamp 0, the midnight starting that day) is counted
overdue by the code already at one hour into that same day
(now = 3600000), although the date-only reading of the claim, which
ignores the time of day, counts nothing overdue there. -/
theorem overdueCount_due_today_cex :
    (calculateTaskStatistics [exTaskDueToday] 3600000).overdue = 1
    ∧ claimOverdueCount [exTaskDueToday] 3600000 = 0
    ∧ (0 : Int).fdiv msPerDay = (3600000 : Int).fdiv msPerDay
    ∧ isTaskOverdue 3600000 exTaskDueToday = true := by
  refine ⟨by decide, by decide, by decide, by decide⟩

/-! ## Claim C4 -/

/-- Claim C4 (amended): a task is in the filtered output exactly when it
survives the search filter and each structured filter is either the
string `all` or matches the task: category and priority by an exact
case-insensitive comparison, but status by comparing the lowercased
status with its first space replaced by a hyphen against the lowercased
filter value (so the filters compose by logical AND, and filtering by a
category keeps exactly the tasks of that category up to case). -/
theorem applyFilters_membership (filters : ActiveFilters)
    (sortField sortDirection : Str) (tasks : List Task) (t : Task) :
    t ∈ applyFiltersAndSorting filters sortField sortDirection tasks
      ↔ t ∈ searchTasks filters.search tasks
        ∧ (filters.category = "all".toList
            ∨ jsToLower t.category = jsToLower filters.category)
        ∧ (filters.priority = "all".toList
            ∨ jsToLower t.priority = jsToLower filters.priority)
        ∧ (filters.status = "all".toList
            ∨ replaceFirst ' ' '-' (jsToLower t.status) = jsToLower filters.status) := by
  unfold applyFiltersAndSorting
  rw [jsSortWith_const_zero (fun a b => sortTasksByField a b sortField sortDirection)
    (fun a b => rfl)]
  by_cases hc : filters.category = "all".toList <;>
    by_cases hp : filters.priority = "all".toList <;>
      by_cases hs : filters.status = "all".toList <;>
        simp_all [List.mem_filter] <;>
          tauto

/-- Claim C4, counterexample to the claim as stated: a task whose status
is `In Progress` is an exact case-insensitive match of the status
filter value `in progress`, yet the filter removes it, because the code
compares the hyphenated slug `in-progress` against the filter value. -/
theorem applyFilters_status_slug_cex :
    jsToLower exTaskInProgress.status = jsToLower exStatusFilters.status
    ∧ applyFiltersAndSorting exStatusFilters "priority".toList "desc".toList
        [exTaskInProgress] = []
    ∧ applyFiltersAndSorting
        { exStatusFilters with status := "in-progress".toList }
        "priority".toList "desc".toList [exTaskInProgress] = [exTaskInProgress] := by
  refine ⟨by decide, by decide, by decide⟩

/-! ## Claim C5 -/

theorem strStartsWith_iff (hay pat : Str) :
    strStartsWith hay pat = true ↔ pat <+: hay := by
  induction hay generalizing pat with
  | nil =>
    cases pat with
    | nil => simp [strStartsWith]
    | cons p ps => simp [strStartsWith]
  | cons c cs ih =>
    cases pat with
    | nil => simp [strStartsWith]
    | cons p ps =>
      simp only [strStartsWith, Bool.and_eq_true, decide_eq_true_eq, ih]
      constructor
      · rintro ⟨rfl, hps⟩
        obtain ⟨t2, ht2⟩ := hps
        exact ⟨t2, by rw [List.cons_append, ht2]⟩
      · intro h
        rcases h with ⟨ts, hts⟩
        injection hts with h1 h2
        exact ⟨h1.symm, ⟨ts, h2⟩⟩

theorem strContains_iff (hay pat : Str) :
    strContains hay pat = true ↔ pat <:+: hay := by
  induction hay with
  | nil =>
    cases pat with
    | nil => simp [strContains]
    | cons p ps => simp [strContains]
  | cons c cs ih =>
    simp only [strContains, Bool.or_eq_true, strStartsWith_iff, ih]
    constructor
    · rintro (h | h)
      · exact List.IsPrefix.isInfix h
      · exact h.trans ( List.IsSuffix.isInfix (List.suffix_cons c cs))
    · intro h
      rcases h with ⟨s, t, hst⟩
      cases s with
      | nil =>
        left
        exact ⟨t, by simpa using hst⟩
      | cons x xs =>
        right
        injection hst with h1 h2
        exact ⟨xs, t, h2⟩

theorem jsTrim_within (s : Str) : jsTrim s <:+: s := by
  have h1 : s.dropWhile Char.isWhitespace <:+ s := List.dropWhile_suffix _
  have h2 : (s.dropWhile Char.isWhitespace).reverse.dropWhile Char.isWhitespace
      <:+ (s.dropWhile Char.isWhitespace).reverse := List.dropWhile_suffix _
  have h3 : jsTrim s <+: s.dropWhile Char.isWhitespace := by
    unfold jsTrim
    rw [← List.reverse_suffix]
    simpa using h2
  exact (h3.isInfix).trans h1.isInfix

/-- Claim C5 (amended): searching keeps exactly the tasks for which at
least one of title, description, category, assignee, a tag, id,
status or priority contains the lowercased and then whitespace-trimmed
search term as a substring (an all-whitespace term keeps every task);
hence the result is never longer than the input, and every task whose
lowercased title contains the lowercased term as a substring — in
particular every task whose title contains the term case-insensitively
— appears in the result. The claim as stated fails only in that the
term is trimmed before matching (see the counterexample). -/
theorem searchTasks_membership (searchTerm : Str) (tasks : List Task) :
    (∀ t : Task, t ∈ performSearchResults searchTerm tasks ↔
        t ∈ tasks ∧ (jsTrim (jsToLower searchTerm) = []
          ∨ taskMatchesSearch (jsTrim (jsToLower searchTerm)) t = true))
    ∧ (performSearchResults searchTerm tasks).length ≤ tasks.length
    ∧ ∀ t ∈ tasks, jsToLower searchTerm <:+: jsToLower t.title →
        t ∈ performSearchResults searchTerm tasks := by
  refine ⟨?_, ?_, ?_⟩
  · intro t
    unfold performSearchResults searchTasks
    by_cases h : jsTrim (jsToLower searchTerm) = []
    · simp [h]
    · simp [h, List.mem_filter]
  · unfold performSearchResults searchTasks
    by_cases h : jsTrim (jsToLower searchTerm) = []
    · simp [h]
    · simp only [h, if_false]
      exact List.length_filter_le _ _
  · intro t ht htitle
    unfold performSearchResults searchTasks
    by_cases h : jsTrim (jsToLower searchTerm) = []
    · simpa [h] using ht
    · simp only [h, if_false, List.mem_filter]
      refine ⟨ht, ?_⟩
      have hterm : jsTrim (jsToLower searchTerm) <:+: jsToLower t.title :=
        (jsTrim_within (jsToLower searchTerm)).trans htitle
      have hcont : strContains (jsToLower t.title) (jsTrim (jsToLower searchTerm)) = true :=
        (strContains_iff _ _).mpr hterm
      unfold taskMatchesSearch
      simp [hcont]

/-- Claim C5, counterexample to the claim as stated: for the search term
`b ` (b followed by a space) and a task titled `ab` none of whose
fields contains `b `, the claim says the task is filtered out, but the
code first trims the term to `b` and keeps the task. -/
theorem searchTasks_trims_term_cex :
    performSearchResults ['b', ' '] [exTaskTitleAb] = [exTaskTitleAb]
    ∧ claimSearchMatch ['b', ' '] exTaskTitleAb = false := by
  refine ⟨by decide, by decide⟩

/-! ## Claims C6 and C7 -/

theorem findIdx?_some_elem {α : Type} {p : α → Bool} {l : List α} {i : Nat}
    (h : l.findIdx? p = some i) : ∃ x, l[i]? = some x ∧ p x = true := by
  obtain ⟨hlen, hidx⟩ := List.findIdx?_eq_some_iff_findIdx_eq.mp h
  refine ⟨l[i], by simp [List.getElem?_eq_getElem hlen], ?_⟩
  subst hidx
  exact List.findIdx_getElem

/-- Claim C6 (amended): saving an edit replaces exactly the stored task
whose id matches the edited id; the replacement keeps the identifier
and refreshes the updated timestamp, but its created timestamp is the
absent value — `loadTaskForEditing` is an unimplemented stub, so
`currentTask.createdAt` is undefined and the stored creation timestamp
is lost rather than preserved — and its owning-user id becomes the
logged-in user's id, which preserves ownership only when the editor
already owns the task. Every other stored task is untouched. -/
theorem saveTask_edit_fields (form : TaskForm) (editingTaskId freshId nowS uid : String)
    (store : List TaskRec) (i : Nat) (old : TaskRec)
    (hfind : store.findIdx? (fun task => task.id = editingTaskId) = some i)
    (hold : store[i]? = some old) :
    (saveTaskToStorage true editingTaskId
        (taskToSave true editingTaskId freshId form nowS uid) store).1 = .ok ()
    ∧ (saveTaskToStorage true editingTaskId
        (taskToSave true editingTaskId freshId form nowS uid) store).2
      = store.set i (taskToSave true editingTaskId freshId form nowS uid)
    ∧ (taskToSave true editingTaskId freshId form nowS uid).id = old.id
    ∧ (taskToSave true editingTaskId freshId form nowS uid).updatedAt = nowS
    ∧ (taskToSave true editingTaskId freshId form nowS uid).createdAt = none
    ∧ (taskToSave true editingTaskId freshId form nowS uid).userId = uid
    ∧ ∀ j : Nat, ¬ j = i →
        (saveTaskToStorage true editingTaskId
          (taskToSave true editingTaskId freshId form nowS uid) store).2[j]?
          = store[j]? := by
  obtain ⟨x, hx, hpx⟩ := findIdx?_some_elem hfind
  rw [hold] at hx
  injection hx with hx
  subst hx
  have hid : old.id = editingTaskId := by simpa using hpx
  have hrun : saveTaskToStorage true editingTaskId
      (taskToSave true editingTaskId freshId form nowS uid) store
      = (.ok (), store.set i (taskToSave true editingTaskId freshId form nowS uid)) := by
    unfold saveTaskToStorage
    rw [if_pos rfl, hfind]
  refine ⟨by rw [hrun], by rw [hrun], by simp [taskToSave, hid],
    rfl, rfl, rfl, ?_⟩
  intro j hj
  rw [hrun]
  exact List.getElem?_set_ne (fun h => hj h.symm)

/-- Claim C6, witness: the general theorem applied to a one-task store
whose task is owned by u1 with a recorded creation timestamp, edited by
user u2: the edit succeeds, the id survives, but the stored creation
timestamp becomes absent and the owner becomes u2. -/
theorem saveTask_edit_fields_witness :
    (saveTaskToStorage true "t1"
        (taskToSave true "t1" "fresh" exEditForm "2025-05-05T00:00:00.000Z" "u2")
        [exStoredTask]).1 = .ok ()
    ∧ (saveTaskToStorage true "t1"
        (taskToSave true "t1" "fresh" exEditForm "2025-05-05T00:00:00.000Z" "u2")
        [exStoredTask]).2
      = [exStoredTask].set 0
          (taskToSave true "t1" "fresh" exEditForm "2025-05-05T00:00:00.000Z" "u2")
    ∧ (taskToSave true "t1" "fresh" exEditForm
        "2025-05-05T00:00:00.000Z" "u2").id = exStoredTask.id
    ∧ (taskToSave true "t1" "fresh" exEditForm
        "2025-05-05T00:00:00.000Z" "u2").updatedAt = "2025-05-05T00:00:00.000Z"
    ∧ (taskToSave true "t1" "fresh" exEditForm
        "2025-05-05T00:00:00.000Z" "u2").createdAt = none
    ∧ (taskToSave true "t1" "fresh" exEditForm
        "2025-05-05T00:00:00.000Z" "u2").userId = "u2"
    ∧ ∀ j : Nat, ¬ j = 0 →
        (saveTaskToStorage true "t1"
          (taskToSave true "t1" "fresh" exEditForm "2025-05-05T00:00:00.000Z" "u2")
          [exStoredTask]).2[j]? = [exStoredTask][j]? :=
  saveTask_edit_fields exEditForm "t1" "fresh" "2025-05-05T00:00:00.000Z" "u2"
    [exStoredTask] 0 exStoredTask (by decide) (by decide)

/-- Claim C6, counterexample to the claim as stated: editing the stored
task t1 (created 2024-01-01, owned by u1) as user u2 stores a task
whose created timestamp is absent instead of the original one and whose
owning user is u2 instead of u1. -/
theorem saveTask_edit_mutates_cex :
    (saveTaskToStorage true "t1"
        (taskToSave true "t1" "fresh" exEditForm "2025-05-05T00:00:00.000Z" "u2")
        [exStoredTask]).2
      = [{ form := exEditForm, id := "t1", createdAt := none,
           updatedAt := "2025-05-05T00:00:00.000Z", userId := "u2" }]
    ∧ exStoredTask.createdAt = some "2024-01-01T00:00:00.000Z"
    ∧ exStoredTask.userId = "u1"
    ∧ ¬ (none : Option String) = exStoredTask.createdAt
    ∧ ¬ "u2" = exStoredTask.userId := by
  refine ⟨by decide, by decide, by decide, by decide, by decide⟩

/-- Claim C7: updating a task whose id is absent from the stored
collection fails with the not-found error and leaves the stored
collection exactly as it was. -/
theorem saveTask_edit_missing_id (editingTaskId : String) (taskData : TaskRec)
    (store : List TaskRec)
    (habsent : ∀ task ∈ store, ¬ task.id = editingTaskId) :
    saveTaskToStorage true editingTaskId taskData store
      = (.error "Task not found for editing", store) := by
  have hnone : store.findIdx? (fun task => task.id = editingTaskId) = none := by
    rw [List.findIdx?_eq_none_iff]
    intro x hx
    simpa using habsent x hx
  unfold saveTaskToStorage
  rw [if_pos rfl, hnone]

/-- Claim C7, witness: updating id zzz in a store holding only id t1
fails with the not-found error and the store is unchanged. -/
theorem saveTask_edit_missing_id_witness :
    saveTaskToStorage true "zzz" exStoredTask [exStoredTask]
      = (.error "Task not found for editing", [exStoredTask]) :=
  saveTask_edit_missing_id "zzz" exStoredTask [exStoredTask] (by decide)

/-! ## Claim C8 -/

/-- Claim C8: authentication with an unknown email and authentication
with a known email but mismatching password both fail, and both return
the same failure constructor carrying the identical message string, so
the caller cannot tell which field was wrong. -/
theorem authenticateUser_uniform_error (email password : String) :
    ((∀ u ∈ DEMO_USERS, ¬ u.email = email) →
      authenticateUser email password = .failure loginErrorMessage)
    ∧ (∀ u : DemoUser,
        DEMO_USERS.find? (fun v => v.email = email) = some u →
        ¬ u.password = password →
        authenticateUser email password = .failure loginErrorMessage) := by
  constructor
  · intro h
    have hnone : DEMO_USERS.find? (fun v => v.email = email) = none := by
      rw [List.find?_eq_none]
      intro x hx
      simpa using h x hx
    unfold authenticateUser
    rw [hnone]
  · intro u hu hpw
    unfold authenticateUser
    rw [hu]
    simp [hpw]

/-- Claim C8, witness: an unknown email and the demo student email with
a wrong password produce the identical failure value. -/
theorem authenticateUser_uniform_error_witness :
    authenticateUser "nobody@example.com" "password123" = .failure loginErrorMessage
    ∧ authenticateUser "student@university.edu" "wrong-password"
        = .failure loginErrorMessage :=
  ⟨(authenticateUser_uniform_error "nobody@example.com" "password123").1 (by decide),
   (authenticateUser_uniform_error "student@university.edu" "wrong-password").2
     (DEMO_USERS.get ⟨0, by decide⟩) (by decide) (by decide)⟩

/-! ## Claim C9 -/

/-- Claim C9 (amended): the login page's session check accepts exactly a
parsed session with an expiry strictly in the future, and on any other
stored value (absent, unparseable, expiry missing, or expiry not in the
future) it reports no session and the key ends cleared. The dashboard's
check, however, accepts unless the expiry is present and strictly in
the past: a session whose expiry equals the current instant, or which
lacks an expiry, is accepted there and not cleared, so validity is not
`now strictly before expiry` on that page. -/
theorem sessionChecks_characterised (store : Option StoredSession) (now : Int) :
    ((checkExistingSession store now).1 = true ↔
      ∃ data e, store = some (.parsed data) ∧ data.expires = some e ∧ now < e)
    ∧ ((checkExistingSession store now).1 = true →
        (checkExistingSession store now).2 = store)
    ∧ ((checkExistingSession store now).1 = false →
        (checkExistingSession store now).2 = none)
    ∧ ((verifyUserAuthentication store now).1 = true ↔
      ∃ data, store = some (.parsed data) ∧ ∀ e, data.expires = some e → now ≤ e)
    ∧ ((verifyUserAuthentication store now).1 = true →
        (verifyUserAuthentication store now).2 = store)
    ∧ ((verifyUserAuthentication store now).1 = false →
        (verifyUserAuthentication store now).2 = none) := by
  rcases store with _ | raw
  · simp [checkExistingSession, verifyUserAuthentication]
  rcases raw with _ | data
  · simp [checkExistingSession, verifyUserAuthentication]
  rcases data with ⟨exp⟩
  rcases exp with _ | e
  · simp [checkExistingSession, verifyUserAuthentication]
  have hexp : SessionData.expires ⟨some e⟩ = some e := rfl
  have hcheck : checkExistingSession (some (.parsed ⟨some e⟩)) now
      = if now < e then (true, some (.parsed ⟨some e⟩)) else (false, none) := rfl
  have hverify : verifyUserAuthentication (some (.parsed ⟨some e⟩)) now
      = if e < now then (false, none) else (true, some (.parsed ⟨some e⟩)) := rfl
  have hinv : ∀ d2 e2, some (StoredSession.parsed ⟨some e⟩) = some (.parsed d2) →
      d2.expires = some e2 → e2 = e := by
    intro d2 e2 hd2 he2
    injection hd2 with hd2
    injection hd2 with hd2
    rw [← hd2, hexp] at he2
    injection he2 with he2
    exact he2.symm
  refine ⟨?_, ?_, ?_, ?_, ?_, ?_⟩
  · rw [hcheck]
    by_cases hlt : now < e
    · rw [if_pos hlt]
      exact ⟨fun _ => ⟨⟨some e⟩, e, rfl, hexp, hlt⟩, fun _ => rfl⟩
    · rw [if_neg hlt]
      constructor
      · intro hfalse
        cases hfalse
      · rintro ⟨d2, e2, hd2, he2, h2⟩
        have he := hinv d2 e2 hd2 he2
        omega
  · rw [hcheck]
    by_cases hlt : now < e
    · rw [if_pos hlt]
      intro _
      rfl
    · rw [if_neg hlt]
      intro htrue
      cases htrue
  · rw [hcheck]
    by_cases hlt : now < e
    · rw [if_pos hlt]
      intro hfalse
      cases hfalse
    · rw [if_neg hlt]
      intro _
      rfl
  · rw [hverify]
    by_cases hgt : e < now
    · rw [if_pos hgt]
      constructor
      · intro hfalse
        cases hfalse
      · rintro ⟨d2, hd2, hall⟩
        injection hd2 with hd2
        injection hd2 with hd2
        have := hall e (by rw [← hd2])
        omega
    · rw [if_neg hgt]
      refine ⟨fun _ => ⟨⟨some e⟩, rfl, ?_⟩, fun _ => rfl⟩
      intro e2 he2
      rw [hexp] at he2
      injection he2 with he2
      omega
  · rw [hverify]
    by_cases hgt : e < now
    · rw [if_pos hgt]
      intro htrue
      cases htrue
    · rw [if_neg hgt]
      intro _
      rfl
  · rw [hverify]
    by_cases hgt : e < now
    · rw [if_pos hgt]
      intro _
      rfl
    · rw [if_neg hgt]
      intro hfalse
      cases hfalse

/-- Claim C9, counterexample to the claim as stated: a stored session
whose expiry equals the current instant is not strictly in the future,
and the login page's check indeed rejects it, yet the dashboard's check
accepts it as valid, so it is not treated as absent. -/
theorem session_exact_expiry_cex :
    (verifyUserAuthentication (some (.parsed ⟨some 100⟩)) 100).1 = true
    ∧ (verifyUserAuthentication (some (.parsed ⟨some 100⟩)) 100).2
        = some (.parsed ⟨some 100⟩)
    ∧ (checkExistingSession (some (.parsed ⟨some 100⟩)) 100).1 = false
    ∧ ¬ (100 : Int) < 100 := by
  refine ⟨by decide, by decide, by decide, by decide⟩

/-! ## Claim C10 -/

/-- Claim C10: authentication checks only the three hard-coded demo
users (a successful authentication always yields one of them), and it
never reads the registered-users collection; therefore any user that
registration successfully stores under an email other than the three
demo emails cannot log in: authentication with that user's email and
password returns the invalid-credentials failure. -/
theorem registeredUser_cannot_login (userData : RegisterForm)
    (newId joinDate registrationDate : String)
    (storedUsers storedUsersAfter : List RegUser) (newUser : RegUser)
    (hreg : registerNewUser userData newId joinDate registrationDate storedUsers
      = (.ok newUser, storedUsersAfter))
    (hnotdemo : ∀ d ∈ DEMO_USERS, ¬ d.email = newUser.email) :
    authenticateUser newUser.email newUser.password = .failure loginErrorMessage
    ∧ newUser ∈ storedUsersAfter
    ∧ ∀ (e p : String) (u : DemoUser),
        authenticateUser e p = .success u → u ∈ DEMO_USERS := by
  have hfail : authenticateUser newUser.email newUser.password
      = .failure loginErrorMessage := by
    have hnone : DEMO_USERS.find? (fun v => v.email = newUser.email) = none := by
      rw [List.find?_eq_none]
      intro x hx
      simpa using hnotdemo x hx
    unfold authenticateUser
    rw [hnone]
  refine ⟨hfail, ?_, ?_⟩
  · unfold registerNewUser at hreg
    by_cases hex : isEmailAlreadyRegistered userData.email storedUsers
    · rw [if_pos hex] at hreg
      injection hreg with h1 h2
      cases h1
    · rw [if_neg hex] at hreg
      injection hreg with h1 h2
      injection h1 with h1
      subst h1
      subst h2
      unfold saveUserToDatabase
      simp
  · intro e p u hu
    unfold authenticateUser at hu
    rcases hfind : DEMO_USERS.find? (fun v => v.email = e) with _ | v
    · rw [hfind] at hu
      cases hu
    · rw [hfind] at hu
      have hu2 : (if ¬ v.password = p then AuthResult.failure loginErrorMessage
          else AuthResult.success v) = AuthResult.success u := hu
      by_cases hpw : ¬ v.password = p
      · rw [if_pos hpw] at hu2
        cases hu2
      · rw [if_neg hpw] at hu2
        injection hu2 with hu2
        subst hu2
        exact List.mem_of_find?_eq_some hfind

/-- Claim C10, witness: registering newuser at example.com into an empty
collection succeeds, stores the user, and a subsequent login with that
email and password fails with the invalid-credentials message. -/
theorem registeredUser_cannot_login_witness :
    authenticateUser exNewRegUser.email exNewRegUser.password
        = .failure loginErrorMessage
    ∧ exNewRegUser ∈ [exNewRegUser]
    ∧ ∀ (e p : String) (u : DemoUser),
        authenticateUser e p = .success u → u ∈ DEMO_USERS :=
  registeredUser_cannot_login exRegisterForm "id1" "2025-01-01"
    "2025-01-01T00:00:00.000Z" [] [exNewRegUser] exNewRegUser rfl (by decide)
